import Mathlib

/-!
Verification of the option-resolution and destination-specification engine
of the `rsync-system-backup` command line front end (`cli.py`).

The development shallowly embeds the Python source: the argument-processing
loop of `main` becomes a step function over an explicit state, the mutable
`program_opts` dictionary becomes an association list with Python `dict`
semantics (`Bag`), and the Python string operations `rpartition`,
`partition`, `lower`, `strip` and the `int` constructor are modelled as
executable functions over `List Char`.  External collaborators
(`SecureTunnel`, `Destination`, the execution engine, the terminal check)
are modelled by the keyword arguments the source passes to them and by an
abstract outcome type.
-/

/-- Characters removed by Python's `str.strip()` (ASCII whitespace). -/
def isPySpace (c : Char) : Bool :=
  c = ' ' || c = '\t' || c = '\n' || c = '\r' || c = '\x0b' || c = '\x0c'

/-- Python `str.strip()` over the underlying character list. -/
def pyStripList (l : List Char) : List Char :=
  ((l.dropWhile isPySpace).reverse.dropWhile isPySpace).reverse

/-- Python `str.strip()`. -/
def pyStrip (s : String) : String := ⟨pyStripList s.data⟩

/-- Python `str.lower()` (ASCII case folding). -/
def pyLower (s : String) : String := ⟨s.data.map Char.toLower⟩

/-- Split a character list at the FIRST occurrence of `c`, returning the
pieces before and after it, or `none` when `c` does not occur. -/
def splitFirst (c : Char) : List Char → Option (List Char × List Char)
  | [] => none
  | x :: xs =>
    if x = c then some ([], xs)
    else (splitFirst c xs).map (fun p => (x :: p.1, p.2))

/-- Split a character list at the LAST occurrence of `c`, returning the
pieces before and after it, or `none` when `c` does not occur. -/
def splitLast (c : Char) : List Char → Option (List Char × List Char)
  | [] => none
  | x :: xs =>
    match splitLast c xs with
    | some p => some (x :: p.1, p.2)
    | none => if x = c then some ([], xs) else none

/-- Python `s.partition(c)`, keeping the pieces before and after the first
occurrence of the separator; `(s, "")` when the separator is absent. -/
def pyPartition (s : String) (c : Char) : String × String :=
  match splitFirst c s.data with
  | some p => (⟨p.1⟩, ⟨p.2⟩)
  | none => (s, "")

/-- Python `s.rpartition(c)`, keeping the pieces before and after the last
occurrence of the separator; `("", s)` when the separator is absent. -/
def pyRPartition (s : String) (c : Char) : String × String :=
  match splitLast c s.data with
  | some p => (⟨p.1⟩, ⟨p.2⟩)
  | none => ("", s)

/-- Numeric value of an ASCII digit character. -/
def digitVal (c : Char) : Nat := c.toNat - 48

/-- Accumulate the remaining digits of a Python base-10 integer literal:
single underscores are permitted between digits, nowhere else. -/
def parseDigitsGo (acc : Nat) : List Char → Option Nat
  | [] => some acc
  | '_' :: c :: cs =>
    if c.isDigit then parseDigitsGo (acc * 10 + digitVal c) cs else none
  | ['_'] => none
  | c :: cs =>
    if c.isDigit then parseDigitsGo (acc * 10 + digitVal c) cs else none

/-- Parse a nonempty unsigned run of digits (with Python's underscore rule). -/
def parseDigitList : List Char → Option Nat
  | [] => none
  | c :: cs => if c.isDigit then parseDigitsGo (digitVal c) cs else none

/-- Python `int(s)` for base 10: optional surrounding whitespace, optional
sign, then ASCII digits with optional single underscore separators.
Returns `none` where Python raises `ValueError`. -/
def pyInt (s : String) : Option Int :=
  match pyStripList s.data with
  | '+' :: rest => (parseDigitList rest).map (fun n => (n : Int))
  | '-' :: rest => (parseDigitList rest).map (fun n => -(n : Int))
  | rest => (parseDigitList rest).map (fun n => (n : Int))

/-- Modelled from the spec: `RSYNCD_PORT` lives in
`rsync_system_backup.destinations`, which is not part of the examined
source; the spec fixes it as the well-known default rsync-daemon port. -/
def RSYNCD_PORT : Nat := 873

/-- Modelled from the spec: the keyword arguments `cli.py` passes to the
external `SecureTunnel` constructor (`executor.ssh.client`).  `port` is the
SSH port and is only present when the tunnel expression carries one. -/
structure SecureTunnel where
  ssh_alias : String
  ssh_user : String
  remote_port : Nat
  port : Option Int := none
deriving DecidableEq, Repr

/-- Modelled from the spec: the keyword arguments `cli.py` passes to the
external `Destination` constructor (`rsync_system_backup.destinations`). -/
structure Destination where
  expression : String
  ssh_tunnel : Option SecureTunnel := none
deriving DecidableEq, Repr

/-- Values stored in the `program_opts` dictionary of `main`. -/
inductive OptValue where
  | bool (b : Bool)
  | str (s : String)
  | strList (l : List String)
  | dest (d : Destination)
deriving DecidableEq, Repr

/-- A Python dictionary with string keys, as an association list. -/
abbrev Bag := List (String × OptValue)

/-- Dictionary lookup: `b[k]` as an `Option`. -/
def Bag.get : Bag → String → Option OptValue
  | [], _ => none
  | (k, v) :: rest, key => if k = key then some v else Bag.get rest key

/-- Dictionary assignment `b[k] = v`: replaces in place or appends. -/
def Bag.insert : Bag → String → OptValue → Bag
  | [], key, val => [(key, val)]
  | (k, v) :: rest, key, val =>
    if k = key then (k, val) :: rest else (k, v) :: Bag.insert rest key val

/-- Python `b.setdefault(k, v)`: inserts only when the key is absent. -/
def Bag.setdefault (b : Bag) (key : String) (val : OptValue) : Bag :=
  match Bag.get b key with
  | some _ => b
  | none => b ++ [(key, val)]

theorem Bag.get_insert (b : Bag) (k : String) (v : OptValue) (k' : String) :
    Bag.get (Bag.insert b k v) k' = if k = k' then some v else Bag.get b k' := by
  induction b with
  | nil => simp [Bag.insert, Bag.get]
  | cons hd tl ih =>
    obtain ⟨k₀, v₀⟩ := hd
    by_cases h₀ : k₀ = k
    · subst h₀
      by_cases h₁ : k₀ = k'
      · subst h₁; simp [Bag.insert, Bag.get]
      · simp [Bag.insert, Bag.get, h₁]
    · by_cases h₁ : k₀ = k'
      · subst h₁
        have : ¬ k = k₀ := fun h => h₀ h.symm
        simp [Bag.insert, Bag.get, h₀, this]
      · simp [Bag.insert, Bag.get, h₀, h₁, ih]

theorem Bag.get_append_single (b : Bag) (k : String) (v : OptValue) (k' : String) :
    Bag.get (b ++ [(k, v)]) k' =
      match Bag.get b k' with
      | some w => some w
      | none => if k = k' then some v else none := by
  induction b with
  | nil => simp [Bag.get]
  | cons hd tl ih =>
    obtain ⟨k₀, v₀⟩ := hd
    by_cases h₀ : k₀ = k'
    · simp [Bag.get, h₀]
    · simp [Bag.get, h₀, ih]

theorem Bag.get_setdefault (b : Bag) (k : String) (v : OptValue) (k' : String) :
    Bag.get (Bag.setdefault b k v) k' =
      if k = k' then some ((Bag.get b k).getD v) else Bag.get b k' := by
  unfold Bag.setdefault
  cases h : Bag.get b k with
  | some w =>
    by_cases hk : k = k'
    · subst hk; simp [h]
    · simp [hk]
  | none =>
    rw [Bag.get_append_single]
    by_cases hk : k = k'
    · subst hk; simp [h]
    · cases h' : Bag.get b k' <;> simp [hk, h']

/-- The three action keys of the triad, in the order `enable_explicit_action`
iterates over them in the source. -/
def triad : List String := ["backup_enabled", "snapshot_enabled", "rotate_enabled"]

/-- Embedding of `enable_explicit_action(options, explicit_action)`:
set the explicit action to `True`, then `setdefault` every other triad key
to `False`. -/
def enable_explicit_action (options : Bag) (explicit_action : String) : Bag :=
  triad.foldl
    (fun acc implicit_action =>
      if implicit_action ≠ explicit_action then
        Bag.setdefault acc implicit_action (OptValue.bool false)
      else acc)
    (Bag.insert options explicit_action (OptValue.bool true))

theorem get_setdefault_step (o : Bag) (ki a k : String) :
    Bag.get (if ki ≠ a then Bag.setdefault o ki (OptValue.bool false) else o) k =
      if ki = k ∧ ki ≠ a then some ((Bag.get o k).getD (OptValue.bool false))
      else Bag.get o k := by
  by_cases ha : ki = a
  · simp [ha]
  · by_cases hk : ki = k
    · subst hk; simp [ha, Bag.get_setdefault]
    · simp [ha, hk, Bag.get_setdefault]

theorem enable_get_triad (b : Bag) (a k : String) (hk : k ∈ triad) :
    Bag.get (enable_explicit_action b a) k =
      if k = a then some (OptValue.bool true)
      else some ((Bag.get b k).getD (OptValue.bool false)) := by
  simp only [enable_explicit_action, triad, List.foldl]
  rw [get_setdefault_step, get_setdefault_step, get_setdefault_step, Bag.get_insert]
  by_cases ha : k = a
  · subst ha
    fin_cases hk <;> simp
  · fin_cases hk <;> simp_all <;> simp [eq_comm] at ha ⊢ <;> simp [ha]

theorem enable_get_other (b : Bag) (a k : String) (hk : k ∉ triad) (hka : k ≠ a) :
    Bag.get (enable_explicit_action b a) k = Bag.get b k := by
  have h1 : ¬ ("backup_enabled" = k) := by
    intro h; exact hk (by rw [← h]; simp [triad])
  have h2 : ¬ ("snapshot_enabled" = k) := by
    intro h; exact hk (by rw [← h]; simp [triad])
  have h3 : ¬ ("rotate_enabled" = k) := by
    intro h; exact hk (by rw [← h]; simp [triad])
  simp only [enable_explicit_action, triad, List.foldl]
  rw [get_setdefault_step, get_setdefault_step, get_setdefault_step, Bag.get_insert]
  have ha : ¬ (a = k) := fun h => hka h.symm
  simp [ha, h1, h2, h3]

/-- Error message raised by Python `int()` on a malformed literal. -/
def invalid_int_message (s : String) : String :=
  "invalid literal for int() with base 10: " ++ s

/-- Modelled from the spec: the external `validate_ionice_class` of the
`executor` package accepts a fixed set of I/O scheduling class names and
raises an error on every other value. -/
def ionice_classes : List String := ["none", "realtime", "best-effort", "idle"]

/-- Modelled from the spec: the message of the error that the external
`validate_ionice_class` raises on a rejected class value. -/
def invalid_ionice_message (s : String) : String :=
  "Invalid I/O scheduling class! (" ++ s ++ ")"

/-- Embedding of the `-t`/`--tunnel` handler of `main` (lines 55-67):
`rpartition` the value on the last at-sign into `ssh_user` and a remainder,
`partition` the remainder on the first colon into `ssh_alias` and a port
segment; the remote port is always `RSYNCD_PORT`, and a nonempty port
segment is converted with `int()` and becomes the SSH port. -/
def parseTunnel (value : String) : Except String SecureTunnel :=
  let p1 := pyRPartition value '@'
  let p2 := pyPartition p1.2 ':'
  if p2.2 = "" then
    Except.ok { ssh_alias := p2.1, ssh_user := p1.1, remote_port := RSYNCD_PORT, port := none }
  else
    match pyInt p2.2 with
    | some n =>
      Except.ok { ssh_alias := p2.1, ssh_user := p1.1, remote_port := RSYNCD_PORT, port := some n }
    | none => Except.error (invalid_int_message p2.2)

/-- The port segment of a tunnel flag value: the part after the first colon
of the remainder that follows the last at-sign. -/
def portSegment (value : String) : String :=
  (pyPartition (pyRPartition value '@').2 ':').2

/-- One parsed command line option, as produced by `getopt.gnu_getopt` from
the flag table of `main` (lines 39-43). -/
inductive CliOption where
  | backup
  | snapshot
  | rotate
  | mount (value : String)
  | crypto (value : String)
  | tunnel (value : String)
  | ionice (value : String)
  | noSudo
  | dryRun
  | exclude (value : String)
  | force
  | multiFs
  | disableNotifications
  | verbose
  | quiet
  | help
deriving DecidableEq, Repr

/-- The mutable state threaded through the option loop of `main`: the
`program_opts` dictionary, the `ssh_tunnel` entry of `dest_opts`, and the
process-wide logging verbosity adjusted by `-v`/`-q`. -/
structure LoopState where
  program_opts : Bag
  ssh_tunnel : Option SecureTunnel
  verbosity : Int
deriving DecidableEq, Repr

/-- State of `main` before any option is processed. -/
def initState : LoopState := { program_opts := [], ssh_tunnel := none, verbosity := 0 }

/-- Result of processing a single option in the loop of `main`. -/
inductive StepOutcome where
  | cont (st : LoopState)
  | helpRequested
  | fail (msg : String)
deriving DecidableEq, Repr

/-- Embedding of the `exclude_list` handler: `setdefault` the key to an
empty list, then append the pattern to the stored list. -/
def appendExclude (b : Bag) (value : String) : Bag :=
  let b := Bag.setdefault b "exclude_list" (OptValue.strList [])
  match Bag.get b "exclude_list" with
  | some (OptValue.strList l) => Bag.insert b "exclude_list" (OptValue.strList (l ++ [value]))
  | _ => b

/-- Embedding of one iteration of the option loop of `main` (lines 44-94). -/
def processOpt (st : LoopState) : CliOption → StepOutcome
  | CliOption.backup =>
    StepOutcome.cont { st with program_opts := enable_explicit_action st.program_opts "backup_enabled" }
  | CliOption.snapshot =>
    StepOutcome.cont { st with program_opts := enable_explicit_action st.program_opts "snapshot_enabled" }
  | CliOption.rotate =>
    StepOutcome.cont { st with program_opts := enable_explicit_action st.program_opts "rotate_enabled" }
  | CliOption.mount v =>
    StepOutcome.cont { st with program_opts := Bag.insert st.program_opts "mount_point" (OptValue.str v) }
  | CliOption.crypto v =>
    StepOutcome.cont { st with program_opts := Bag.insert st.program_opts "crypto_device" (OptValue.str v) }
  | CliOption.tunnel v =>
    match parseTunnel v with
    | Except.ok t => StepOutcome.cont { st with ssh_tunnel := some t }
    | Except.error msg => StepOutcome.fail msg
  | CliOption.ionice v =>
    let cls := pyStrip (pyLower v)
    if ionice_classes.contains cls then
      StepOutcome.cont { st with program_opts := Bag.insert st.program_opts "ionice" (OptValue.str cls) }
    else StepOutcome.fail (invalid_ionice_message cls)
  | CliOption.noSudo =>
    StepOutcome.cont { st with program_opts := Bag.insert st.program_opts "sudo_enabled" (OptValue.bool false) }
  | CliOption.dryRun =>
    StepOutcome.cont { st with program_opts := Bag.insert st.program_opts "dry_run" (OptValue.bool true) }
  | CliOption.exclude v =>
    StepOutcome.cont { st with program_opts := appendExclude st.program_opts v }
  | CliOption.force =>
    StepOutcome.cont { st with program_opts := Bag.insert st.program_opts "force" (OptValue.bool true) }
  | CliOption.multiFs =>
    StepOutcome.cont { st with program_opts := Bag.insert st.program_opts "multi_fs" (OptValue.bool true) }
  | CliOption.disableNotifications =>
    StepOutcome.cont { st with program_opts := Bag.insert st.program_opts "notifications_enabled" (OptValue.bool false) }
  | CliOption.verbose => StepOutcome.cont { st with verbosity := st.verbosity + 1 }
  | CliOption.quiet => StepOutcome.cont { st with verbosity := st.verbosity - 1 }
  | CliOption.help => StepOutcome.helpRequested

/-- Result of the whole option loop: completion, an early `return` from the
help flag, or a raised exception with the state at the moment it is raised. -/
inductive LoopResult where
  | done (st : LoopState)
  | helpRequested
  | fail (st : LoopState) (msg : String)
deriving DecidableEq, Repr

/-- Run the option loop of `main` over the parsed options in order. -/
def runLoop (st : LoopState) : List CliOption → LoopResult
  | [] => LoopResult.done st
  | o :: rest =>
    match processOpt st o with
    | StepOutcome.cont st' => runLoop st' rest
    | StepOutcome.helpRequested => LoopResult.helpRequested
    | StepOutcome.fail msg => LoopResult.fail st msg

/-- Message of the arity error raised for more than two positional
arguments (lines 95-97). -/
def arity_message (n : Nat) : String :=
  "Expected one or two positional arguments! (got " ++ toString n ++ ")"

/-- Truthiness of `os.environ.get(name)`: unset and empty are both falsy. -/
def envTruthy : Option String → Bool
  | none => false
  | some s => !(s == "")

/-- Outcome of the argument-parsing phase of `main` (the first `try` block):
a `program_opts` dictionary ready for the execution engine, a clean usage
display (help flag, or no destination and no default module path), or a
reported error with the loop state at the moment it was raised. -/
inductive ParseOutcome where
  | ok (program_opts : Bag)
  | usage
  | error (msg : String) (st : LoopState)
deriving DecidableEq, Repr

/-- Embedding of the argument-parsing phase of `main` (lines 38-111):
run the option loop, enforce the positional arity rules, store `source`
and construct the `Destination` held in `program_opts`. -/
def parseMain (opts : List CliOption) (args : List String) (env : Option String) : ParseOutcome :=
  match runLoop initState opts with
  | LoopResult.helpRequested => ParseOutcome.usage
  | LoopResult.fail st msg => ParseOutcome.error msg st
  | LoopResult.done st =>
    match args with
    | [] =>
      if envTruthy env then ParseOutcome.ok st.program_opts else ParseOutcome.usage
    | [dst] =>
      ParseOutcome.ok
        (Bag.insert st.program_opts "destination"
          (OptValue.dest { expression := dst, ssh_tunnel := st.ssh_tunnel }))
    | [src, dst] =>
      ParseOutcome.ok
        (Bag.insert (Bag.insert st.program_opts "source" (OptValue.str src)) "destination"
          (OptValue.dest { expression := dst, ssh_tunnel := st.ssh_tunnel }))
    | _ => ParseOutcome.error (arity_message args.length) st

/-- Modelled from the spec: the abstract outcome of the external execution
engine's `execute()`, classified by the exception hierarchy of
`rsync_system_backup.exceptions` — `MissingBackupDiskError` is a
`RsyncSystemBackupError`, `domainError` stands for every other
`RsyncSystemBackupError`, and `unexpected` for everything else. -/
inductive EngineResult where
  | success
  | missingBackupDisk (msg : String)
  | domainError (msg : String)
  | unexpected (msg : String)
deriving DecidableEq, Repr

/-- Whether the engine outcome is a recognized domain error, mirroring
`isinstance(e, RsyncSystemBackupError)`. -/
def EngineResult.isDomainError : EngineResult → Bool
  | EngineResult.missingBackupDisk _ => true
  | EngineResult.domainError _ => true
  | _ => false

/-- The one log record the outcome handling of `main` emits. -/
inductive LogEvent where
  | noneEv
  | warningMsg (msg : String)
  | infoSkip (msg : String)
  | errorMsg (msg : String)
  | errorTrace (msg : String)
deriving DecidableEq, Repr

/-- Embedding of the outcome handling of `main` (lines 118-136): the exit
code and log record chosen for an engine outcome, given whether the process
is attached to an interactive terminal. -/
def triage (connected : Bool) : EngineResult → Nat × LogEvent
  | EngineResult.success => (0, LogEvent.noneEv)
  | EngineResult.missingBackupDisk m =>
    if connected then (1, LogEvent.errorMsg m) else (0, LogEvent.infoSkip m)
  | EngineResult.domainError m => (1, LogEvent.errorMsg m)
  | EngineResult.unexpected m => (1, LogEvent.errorTrace m)

/-- The observable result of one invocation of `main`: the process exit
code, whether the execution engine was invoked, and the log record. -/
structure MainResult where
  exitCode : Nat
  engineInvoked : Bool
  log : LogEvent
deriving DecidableEq, Repr

/-- Embedding of `main`: parse the arguments, then either report a parse
error and exit 1, display usage and return cleanly, or invoke the
execution engine and triage its outcome. -/
def runMain (opts : List CliOption) (args : List String) (env : Option String)
    (engine : EngineResult) (connected : Bool) : MainResult :=
  match parseMain opts args env with
  | ParseOutcome.usage => { exitCode := 0, engineInvoked := false, log := LogEvent.noneEv }
  | ParseOutcome.error msg _ =>
    { exitCode := 1, engineInvoked := false, log := LogEvent.warningMsg ("Error: " ++ msg) }
  | ParseOutcome.ok _ =>
    let r := triage connected engine
    { exitCode := r.1, engineInvoked := true, log := r.2 }

theorem runLoop_append (l₁ l₂ : List CliOption) (st st' : LoopState)
    (h : runLoop st l₁ = LoopResult.done st') :
    runLoop st (l₁ ++ l₂) = runLoop st' l₂ := by
  induction l₁ generalizing st with
  | nil =>
    simp only [runLoop] at h
    cases h
    simp
  | cons o rest ih =>
    simp only [runLoop, List.cons_append] at h ⊢
    cases hp : processOpt st o with
    | cont s₁ =>
      rw [hp] at h
      exact ih s₁ h
    | helpRequested => rw [hp] at h; cases h
    | fail m => rw [hp] at h; cases h

theorem runLoop_inv (P : LoopState → Prop) :
    ∀ (opts : List CliOption) (st st' : LoopState),
      (∀ s o s', o ∈ opts → processOpt s o = StepOutcome.cont s' → P s → P s') →
      P st →
      (runLoop st opts = LoopResult.done st' ∨
        ∃ m, runLoop st opts = LoopResult.fail st' m) →
      P st' := by
  intro opts
  induction opts with
  | nil =>
    intro st st' hstep hst h
    rcases h with h | ⟨m, h⟩
    · simp only [runLoop] at h; cases h; exact hst
    · simp only [runLoop] at h; cases h
  | cons o rest ih =>
    intro st st' hstep hst h
    cases hp : processOpt st o with
    | cont s₁ =>
      have hs₁ : P s₁ := hstep st o s₁ (List.mem_cons_self o rest) hp hst
      have hrest : ∀ s o' s', o' ∈ rest → processOpt s o' = StepOutcome.cont s' → P s → P s' :=
        fun s o' s' ho' => hstep s o' s' (List.mem_cons_of_mem o ho')
      apply ih s₁ st' hrest hs₁
      rcases h with h | ⟨m, h⟩
      · left; simp only [runLoop, hp] at h; exact h
      · right; exact ⟨m, by simp only [runLoop, hp] at h; exact h⟩
    | helpRequested =>
      rcases h with h | ⟨m, h⟩ <;> simp only [runLoop, hp] at h <;> cases h
    | fail m₀ =>
      rcases h with h | ⟨m, h⟩
      · simp only [runLoop, hp] at h; cases h
      · simp only [runLoop, hp] at h; cases h; exact hst

/-- The `program_opts` keys some iteration of the option loop can write. -/
def loopWrittenKeys : List String :=
  ["backup_enabled", "snapshot_enabled", "rotate_enabled", "mount_point", "crypto_device",
   "ionice", "sudo_enabled", "dry_run", "exclude_list", "force", "multi_fs",
   "notifications_enabled"]

theorem appendExclude_frame (b : Bag) (v : String) (k : String)
    (hk : ¬ ("exclude_list" = k)) :
    Bag.get (appendExclude b v) k = Bag.get b k := by
  unfold appendExclude
  have hsd : Bag.get (Bag.setdefault b "exclude_list" (OptValue.strList [])) "exclude_list"
      = some ((Bag.get b "exclude_list").getD (OptValue.strList [])) := by
    rw [Bag.get_setdefault]; simp
  simp only [hsd]
  cases hg : Bag.get b "exclude_list" with
  | none => simp [hg, Bag.get_insert, Bag.get_setdefault, hk]
  | some w =>
    cases w <;> simp [hg, Bag.get_insert, Bag.get_setdefault, hk]

theorem processOpt_frame (st st' : LoopState) (o : CliOption) (k : String)
    (hk : k ∉ loopWrittenKeys)
    (h : processOpt st o = StepOutcome.cont st') :
    Bag.get st'.program_opts k = Bag.get st.program_opts k := by
  have hne : ∀ k₀ ∈ loopWrittenKeys, ¬ (k₀ = k) := fun k₀ hmem he => hk (he ▸ hmem)
  have htriad : k ∉ triad := by
    intro hm
    apply hk
    have hm' : k = "backup_enabled" ∨ k = "snapshot_enabled" ∨ k = "rotate_enabled" := by
      simpa [triad] using hm
    rcases hm' with hm' | hm' | hm' <;> subst hm' <;> simp [loopWrittenKeys]
  cases o <;> simp only [processOpt] at h
  case backup =>
    cases h
    exact enable_get_other _ _ _ htriad
      (fun he => hne "backup_enabled" (by simp [loopWrittenKeys]) he.symm)
  case snapshot =>
    cases h
    exact enable_get_other _ _ _ htriad
      (fun he => hne "snapshot_enabled" (by simp [loopWrittenKeys]) he.symm)
  case rotate =>
    cases h
    exact enable_get_other _ _ _ htriad
      (fun he => hne "rotate_enabled" (by simp [loopWrittenKeys]) he.symm)
  case mount v =>
    cases h
    simp [Bag.get_insert, hne "mount_point" (by simp [loopWrittenKeys])]
  case crypto v =>
    cases h
    simp [Bag.get_insert, hne "crypto_device" (by simp [loopWrittenKeys])]
  case tunnel v =>
    cases hpt : parseTunnel v with
    | ok t => rw [hpt] at h; cases h; rfl
    | error m => rw [hpt] at h; cases h
  case ionice v =>
    by_cases hc : ionice_classes.contains (pyStrip (pyLower v))
    · simp only [hc, if_true] at h
      cases h
      simp [Bag.get_insert, hne "ionice" (by simp [loopWrittenKeys])]
    · simp only [hc, if_false] at h
      cases h
  case noSudo =>
    cases h
    simp [Bag.get_insert, hne "sudo_enabled" (by simp [loopWrittenKeys])]
  case dryRun =>
    cases h
    simp [Bag.get_insert, hne "dry_run" (by simp [loopWrittenKeys])]
  case exclude v =>
    cases h
    exact appendExclude_frame _ _ _ (hne "exclude_list" (by simp [loopWrittenKeys]))
  case force =>
    cases h
    simp [Bag.get_insert, hne "force" (by simp [loopWrittenKeys])]
  case multiFs =>
    cases h
    simp [Bag.get_insert, hne "multi_fs" (by simp [loopWrittenKeys])]
  case disableNotifications =>
    cases h
    simp [Bag.get_insert, hne "notifications_enabled" (by simp [loopWrittenKeys])]
  case verbose => cases h; rfl
  case quiet => cases h; rfl
  case help => cases h

theorem processOpt_tunnel_frame (st st' : LoopState) (o : CliOption)
    (ho : ∀ w, o ≠ CliOption.tunnel w)
    (h : processOpt st o = StepOutcome.cont st') :
    st'.ssh_tunnel = st.ssh_tunnel := by
  cases o <;> simp only [processOpt] at h
  case tunnel v => exact absurd rfl (ho v)
  case ionice v =>
    by_cases hc : ionice_classes.contains (pyStrip (pyLower v))
    · simp only [hc, if_true] at h; cases h; rfl
    · simp only [hc, if_false] at h; cases h
  case help => cases h
  all_goals (cases h; rfl)

theorem runLoop_frame (opts : List CliOption) (st : LoopState) (k : String)
    (hk : k ∉ loopWrittenKeys)
    (h : runLoop initState opts = LoopResult.done st ∨
         ∃ m, runLoop initState opts = LoopResult.fail st m) :
    Bag.get st.program_opts k = none := by
  exact runLoop_inv (fun s => Bag.get s.program_opts k = none) opts initState st
    (fun s o s' _ hstep hs => by
      show Bag.get s'.program_opts k = none
      rw [processOpt_frame s s' o k hk hstep]
      exact hs)
    rfl h

theorem runLoop_tunnel_frame (opts : List CliOption) (st : LoopState)
    (hno : ∀ w, CliOption.tunnel w ∉ opts)
    (h : runLoop initState opts = LoopResult.done st ∨
         ∃ m, runLoop initState opts = LoopResult.fail st m) :
    st.ssh_tunnel = none := by
  exact runLoop_inv (fun s => s.ssh_tunnel = none) opts initState st
    (fun s o s' hmem hstep hs => by
      show s'.ssh_tunnel = none
      rw [processOpt_tunnel_frame s s' o (fun w he => hno w (he ▸ hmem)) hstep]
      exact hs)
    rfl h

theorem splitFirst_not_mem (c : Char) (l : List Char) (h : c ∉ l) :
    splitFirst c l = none := by
  induction l with
  | nil => rfl
  | cons x xs ih =>
    simp only [List.mem_cons, not_or] at h
    have hx : ¬ (x = c) := fun he => h.1 he.symm
    simp [splitFirst, hx, ih h.2]

theorem splitFirst_append (c : Char) (l₁ l₂ : List Char) (h : c ∉ l₁) :
    splitFirst c (l₁ ++ c :: l₂) = some (l₁, l₂) := by
  induction l₁ with
  | nil => simp [splitFirst]
  | cons x xs ih =>
    simp only [List.mem_cons, not_or] at h
    have hx : ¬ (x = c) := fun he => h.1 he.symm
    simp [splitFirst, hx, ih h.2]

theorem splitLast_not_mem (c : Char) (l : List Char) (h : c ∉ l) :
    splitLast c l = none := by
  induction l with
  | nil => rfl
  | cons x xs ih =>
    simp only [List.mem_cons, not_or] at h
    have hx : ¬ (x = c) := fun he => h.1 he.symm
    simp [splitLast, hx, ih h.2]

theorem splitLast_append (c : Char) (l₁ l₂ : List Char) (h : c ∉ l₂) :
    splitLast c (l₁ ++ c :: l₂) = some (l₁, l₂) := by
  induction l₁ with
  | nil => simp [splitLast, splitLast_not_mem c l₂ h]
  | cons x xs ih => simp [splitLast, ih]

theorem pyRPartition_split (c : Char) (a b : String) (h : c ∉ b.data) :
    pyRPartition (a ++ ⟨[c]⟩ ++ b) c = (a, b) := by
  unfold pyRPartition
  have hd : (a ++ (⟨[c]⟩ : String) ++ b).data = a.data ++ c :: b.data := by
    show (a.data ++ [c]) ++ b.data = a.data ++ c :: b.data
    simp
  rw [hd, splitLast_append c a.data b.data h]

theorem pyRPartition_no_sep (c : Char) (s : String) (h : c ∉ s.data) :
    pyRPartition s c = ("", s) := by
  unfold pyRPartition
  rw [splitLast_not_mem c s.data h]

theorem pyPartition_split (c : Char) (a b : String) (h : c ∉ a.data) :
    pyPartition (a ++ ⟨[c]⟩ ++ b) c = (a, b) := by
  unfold pyPartition
  have hd : (a ++ (⟨[c]⟩ : String) ++ b).data = a.data ++ c :: b.data := by
    show (a.data ++ [c]) ++ b.data = a.data ++ c :: b.data
    simp
  rw [hd, splitFirst_append c a.data b.data h]

theorem pyPartition_no_sep (c : Char) (s : String) (h : c ∉ s.data) :
    pyPartition s c = (s, "") := by
  unfold pyPartition
  rw [splitFirst_not_mem c s.data h]

/-- C9: a single call to `enable_explicit_action(bag, a)` for a triad action
`a` sets key `a` to true; every other triad key is set to false exactly when
it is absent from `bag` and keeps its stored value (never overwritten) when
present; every non-triad key of `bag` is unchanged. -/
theorem enable_action_single_call (bag : Bag) (a : String) (ha : a ∈ triad) :
    Bag.get (enable_explicit_action bag a) a = some (OptValue.bool true) ∧
    (∀ k ∈ triad, k ≠ a →
      (Bag.get bag k = none →
        Bag.get (enable_explicit_action bag a) k = some (OptValue.bool false)) ∧
      (∀ v, Bag.get bag k = some v →
        Bag.get (enable_explicit_action bag a) k = some v)) ∧
    (∀ k, k ∉ triad → Bag.get (enable_explicit_action bag a) k = Bag.get bag k) := by
  refine ⟨?_, ?_, ?_⟩
  · rw [enable_get_triad bag a a ha]
    simp
  · intro k hk hka
    rw [enable_get_triad bag a k hk, if_neg hka]
    constructor
    · intro hnone; rw [hnone]; rfl
    · intro v hsome; rw [hsome]; rfl
  · intro k hk
    have hka : k ≠ a := fun he => hk (he ▸ ha)
    exact enable_get_other bag a k hk hka

theorem enable_action_single_call_witness :
    Bag.get (enable_explicit_action [("rotate_enabled", OptValue.bool true)] "backup_enabled")
      "rotate_enabled" = some (OptValue.bool true) ∧
    Bag.get (enable_explicit_action [("rotate_enabled", OptValue.bool true)] "backup_enabled")
      "backup_enabled" = some (OptValue.bool true) :=
  ⟨((enable_action_single_call [("rotate_enabled", OptValue.bool true)] "backup_enabled"
      (by decide)).2.1 "rotate_enabled" (by decide) (by decide)).2 (OptValue.bool true) rfl,
   (enable_action_single_call [("rotate_enabled", OptValue.bool true)] "backup_enabled"
      (by decide)).1⟩

/-- Sequentially process a list of explicit action flags, as the option loop
of `main` does for `-b`, `-s`, `-r`. -/
def apply_actions (bag : Bag) (flags : List String) : Bag :=
  flags.foldl enable_explicit_action bag

theorem apply_actions_get (flags : List String) :
    ∀ (b : Bag) (seen : List String),
      (∀ k ∈ triad, Bag.get b k =
        if seen.isEmpty then none else some (OptValue.bool (decide (k ∈ seen)))) →
      ∀ k ∈ triad, Bag.get (apply_actions b flags) k =
        if (seen ++ flags).isEmpty then none
        else some (OptValue.bool (decide (k ∈ seen ++ flags))) := by
  induction flags with
  | nil =>
    intro b seen hb k hk
    simpa using hb k hk
  | cons a rest ih =>
    intro b seen hb k hk
    have hstep : ∀ k ∈ triad, Bag.get (enable_explicit_action b a) k =
        if (seen ++ [a]).isEmpty then none
        else some (OptValue.bool (decide (k ∈ seen ++ [a]))) := by
      intro k' hk'
      rw [enable_get_triad b a k' hk', hb k' hk']
      by_cases hka : k' = a
      · subst hka
        simp
      · rw [if_neg hka]
        have hdec : decide (k' ∈ seen ++ [a]) = decide (k' ∈ seen) :=
          decide_eq_decide.mpr (by simp [hka])
        by_cases hs : seen.isEmpty
        · have : seen = [] := by simpa using hs
          subst this
          simp [hka]
        · simp only [hs, if_false]
          have : (seen ++ [a]).isEmpty = false := by
            cases seen <;> simp_all
          simp [this, hdec, hka]
    have hfin := ih (enable_explicit_action b a) (seen ++ [a]) hstep k hk
    have hl : apply_actions b (a :: rest) = apply_actions (enable_explicit_action b a) rest := rfl
    rw [hl, hfin]
    simp

/-- C1: processing a sequence of explicit action flags via
`enable_explicit_action` on a bag with no triad key leaves every named
action true and every other triad key false; with no flags at all none of
the three action keys is present. -/
theorem actions_exactly_explicit (b0 : Bag) (flags : List String)
    (hflags : ∀ a ∈ flags, a ∈ triad)
    (hb0 : ∀ k ∈ triad, Bag.get b0 k = none) :
    (flags = [] → ∀ k ∈ triad, Bag.get (apply_actions b0 flags) k = none) ∧
    (flags ≠ [] → ∀ k ∈ triad, Bag.get (apply_actions b0 flags) k =
      some (OptValue.bool (decide (k ∈ flags)))) := by
  have h := apply_actions_get flags b0 []
    (by intro k hk; simpa using hb0 k hk)
  constructor
  · intro hnil k hk
    subst hnil
    simpa using hb0 k hk
  · intro hne k hk
    have := h k hk
    simp only [List.nil_append] at this
    rw [this]
    cases flags with
    | nil => exact absurd rfl hne
    | cons f fs => simp

theorem actions_exactly_explicit_witness :
    Bag.get (apply_actions [] ["backup_enabled", "rotate_enabled"]) "snapshot_enabled" =
      some (OptValue.bool (decide ("snapshot_enabled" ∈ ["backup_enabled", "rotate_enabled"]))) :=
  (actions_exactly_explicit [] ["backup_enabled", "rotate_enabled"]
    (by decide) (by intro k _; rfl)).2 (by decide) "snapshot_enabled" (by decide)

/-- C2: a tunnel flag value is split on the LAST at-sign into `ssh_user`
(empty when absent) and a remainder, the remainder on the FIRST colon into
`ssh_alias` and an optional SSH port; the remote rsync-daemon port of any
successfully parsed tunnel is always the fixed `RSYNCD_PORT`; the two
worked examples of the spec parse as stated. -/
theorem tunnel_parse_rule :
    (∀ v t, parseTunnel v = Except.ok t → t.remote_port = RSYNCD_PORT) ∧
    (∀ a b : String, '@' ∉ b.data → pyRPartition (a ++ "@" ++ b) '@' = (a, b)) ∧
    (∀ s : String, '@' ∉ s.data → pyRPartition s '@' = ("", s)) ∧
    (∀ a b : String, ':' ∉ a.data → pyPartition (a ++ ":" ++ b) ':' = (a, b)) ∧
    (∀ s : String, ':' ∉ s.data → pyPartition s ':' = (s, "")) ∧
    parseTunnel "alice@backup-host:2222" =
      Except.ok { ssh_alias := "backup-host", ssh_user := "alice",
                  remote_port := RSYNCD_PORT, port := some 2222 } ∧
    parseTunnel "backup-host" =
      Except.ok { ssh_alias := "backup-host", ssh_user := "",
                  remote_port := RSYNCD_PORT, port := none } := by
  refine ⟨?_, ?_, ?_, ?_, ?_, ?_, ?_⟩
  · intro v t h
    unfold parseTunnel at h
    by_cases hp : (pyPartition (pyRPartition v '@').2 ':').2 = ""
    · simp only [hp, if_pos] at h
      cases h
      rfl
    · simp only [hp, if_neg, if_false] at h
      cases hi : pyInt (pyPartition (pyRPartition v '@').2 ':').2 with
      | some n => rw [hi] at h; cases h; rfl
      | none => rw [hi] at h; cases h
  · exact fun a b h => pyRPartition_split '@' a b h
  · exact fun s h => pyRPartition_no_sep '@' s h
  · exact fun a b h => pyPartition_split ':' a b h
  · exact fun s h => pyPartition_no_sep ':' s h
  · rfl
  · rfl

theorem tunnel_parse_rule_witness :
    pyRPartition ("alice" ++ "@" ++ "backup-host:2222") '@' = ("alice", "backup-host:2222") ∧
    pyPartition ("backup-host" ++ ":" ++ "2222") ':' = ("backup-host", "2222") ∧
    pyRPartition "backup-host" '@' = ("", "backup-host") :=
  ⟨tunnel_parse_rule.2.1 "alice" "backup-host:2222" (by decide),
   tunnel_parse_rule.2.2.2.1 "backup-host" "2222" (by decide),
   tunnel_parse_rule.2.2.1 "backup-host" (by decide)⟩

/-- C10: a tunnel flag value with an empty port segment (such as a trailing
colon) parses successfully with the SSH port left absent, rather than
failing. -/
theorem empty_port_ok :
    (∀ v : String, portSegment v = "" →
      parseTunnel v = Except.ok
        { ssh_alias := (pyPartition (pyRPartition v '@').2 ':').1,
          ssh_user := (pyRPartition v '@').1,
          remote_port := RSYNCD_PORT, port := none }) ∧
    parseTunnel "backup-host:" =
      Except.ok { ssh_alias := "backup-host", ssh_user := "",
                  remote_port := RSYNCD_PORT, port := none } := by
  constructor
  · intro v h
    unfold portSegment at h
    simp [parseTunnel, h]
  · rfl

theorem empty_port_ok_witness :
    parseTunnel "backup-host:" =
      Except.ok { ssh_alias := (pyPartition (pyRPartition "backup-host:" '@').2 ':').1,
                  ssh_user := (pyRPartition "backup-host:" '@').1,
                  remote_port := RSYNCD_PORT, port := none } :=
  empty_port_ok.1 "backup-host:" (by decide)

/-- C8: a tunnel flag value whose port segment is nonempty and not a valid
integer makes the option loop raise before the tunnel specification is
constructed; `main` reports the message and exits 1 without invoking the
execution engine. -/
theorem tunnel_port_error (opts₁ opts₂ : List CliOption) (v : String)
    (args : List String) (env : Option String) (st : LoopState)
    (eng : EngineResult) (connected : Bool)
    (hloop : runLoop initState opts₁ = LoopResult.done st)
    (hne : portSegment v ≠ "")
    (hint : pyInt (portSegment v) = none) :
    parseMain (opts₁ ++ CliOption.tunnel v :: opts₂) args env =
      ParseOutcome.error (invalid_int_message (portSegment v)) st ∧
    ((∀ w, CliOption.tunnel w ∉ opts₁) → st.ssh_tunnel = none) ∧
    runMain (opts₁ ++ CliOption.tunnel v :: opts₂) args env eng connected =
      { exitCode := 1, engineInvoked := false,
        log := LogEvent.warningMsg ("Error: " ++ invalid_int_message (portSegment v)) } := by
  have hpt : parseTunnel v = Except.error (invalid_int_message (portSegment v)) := by
    unfold portSegment at hne hint ⊢
    simp [parseTunnel, hne, hint]
  have hrl : runLoop initState (opts₁ ++ CliOption.tunnel v :: opts₂) =
      LoopResult.fail st (invalid_int_message (portSegment v)) := by
    rw [runLoop_append opts₁ (CliOption.tunnel v :: opts₂) initState st hloop]
    simp [runLoop, processOpt, hpt]
  refine ⟨?_, ?_, ?_⟩
  · simp [parseMain, hrl]
  · intro hno
    exact runLoop_tunnel_frame opts₁ st hno (Or.inl hloop)
  · simp [runMain, parseMain, hrl]

theorem tunnel_port_error_witness :
    parseMain [CliOption.tunnel "host:abc"] ["dst"] none =
      ParseOutcome.error (invalid_int_message (portSegment "host:abc")) initState :=
  (tunnel_port_error [] [] "host:abc" ["dst"] none initState EngineResult.success true
    rfl (by decide) (by decide)).1

/-- C7 counterexample: with an explicit action flag BEFORE the invalid
ionice flag, the options map at the moment parsing fails already has the
action key set: action resolution is not prevented. -/
theorem ionice_ordering_cex :
    parseMain [CliOption.backup, CliOption.ionice "invalid"] [] none =
      ParseOutcome.error (invalid_ionice_message "invalid")
        { program_opts := [("backup_enabled", OptValue.bool true),
                           ("snapshot_enabled", OptValue.bool false),
                           ("rotate_enabled", OptValue.bool false)],
          ssh_tunnel := none, verbosity := 0 } ∧
    Bag.get [("backup_enabled", OptValue.bool true),
             ("snapshot_enabled", OptValue.bool false),
             ("rotate_enabled", OptValue.bool false)] "backup_enabled" =
      some (OptValue.bool true) := by
  constructor <;> rfl

/-- C7 corrected: an invalid ionice class value always aborts parsing with
the state reached before the failing flag: no `Destination` is constructed,
the engine is never invoked, the exit code is 1, and options after the
failing flag are never processed (so the action keys present at failure are
exactly those set by earlier flags). -/
theorem ionice_fail_fast (opts₁ opts₂ : List CliOption) (v : String)
    (args : List String) (env : Option String) (st : LoopState)
    (eng : EngineResult) (connected : Bool)
    (hloop : runLoop initState opts₁ = LoopResult.done st)
    (hbad : ionice_classes.contains (pyStrip (pyLower v)) = false) :
    parseMain (opts₁ ++ CliOption.ionice v :: opts₂) args env =
      ParseOutcome.error (invalid_ionice_message (pyStrip (pyLower v))) st ∧
    Bag.get st.program_opts "destination" = none ∧
    runMain (opts₁ ++ CliOption.ionice v :: opts₂) args env eng connected =
      { exitCode := 1, engineInvoked := false,
        log := LogEvent.warningMsg ("Error: " ++ invalid_ionice_message (pyStrip (pyLower v))) } := by
  have hrl : runLoop initState (opts₁ ++ CliOption.ionice v :: opts₂) =
      LoopResult.fail st (invalid_ionice_message (pyStrip (pyLower v))) := by
    rw [runLoop_append opts₁ (CliOption.ionice v :: opts₂) initState st hloop]
    have hbad' : ¬ (pyStrip (pyLower v) ∈ ionice_classes) := by simpa using hbad
    simp [runLoop, processOpt, hbad']
  refine ⟨?_, ?_, ?_⟩
  · simp [parseMain, hrl]
  · exact runLoop_frame opts₁ st "destination" (by decide) (Or.inl hloop)
  · simp [runMain, parseMain, hrl]

theorem ionice_fail_fast_witness :
    parseMain [CliOption.ionice "invalid"] [] none =
      ParseOutcome.error (invalid_ionice_message (pyStrip (pyLower "invalid"))) initState :=
  (ionice_fail_fast [] [] "invalid" [] none initState EngineResult.success false
    rfl (by decide)).1

/-- C4 counterexample: with a help flag present, an argument vector with 3
positional arguments does NOT fail with an arity error and exit 1 — the
help flag triggers a usage display and a clean exit 0 before the arity
check is reached. -/
theorem arity_help_cex :
    runMain [CliOption.help] ["a", "b", "c"] none EngineResult.success true =
      { exitCode := 0, engineInvoked := false, log := LogEvent.noneEv } ∧
    parseMain [CliOption.help] ["a", "b", "c"] none = ParseOutcome.usage := by
  constructor <;> rfl

/-- C4 corrected: whenever option processing completes without an earlier
error or help request, 3 or more positional arguments always fail with the
arity error, the message is reported, the exit code is 1, and the execution
engine is never invoked. -/
theorem arity_error_amended (opts : List CliOption) (args : List String)
    (env : Option String) (st : LoopState) (eng : EngineResult) (connected : Bool)
    (hloop : runLoop initState opts = LoopResult.done st)
    (hlen : 3 ≤ args.length) :
    parseMain opts args env = ParseOutcome.error (arity_message args.length) st ∧
    runMain opts args env eng connected =
      { exitCode := 1, engineInvoked := false,
        log := LogEvent.warningMsg ("Error: " ++ arity_message args.length) } := by
  rcases args with _ | ⟨a, _ | ⟨b, _ | ⟨c, rest⟩⟩⟩
  · simp at hlen
  · simp at hlen
  · simp at hlen
  · constructor
    · simp [parseMain, hloop]
    · simp [runMain, parseMain, hloop]

theorem arity_error_amended_witness :
    parseMain [] ["a", "b", "c"] none = ParseOutcome.error (arity_message 3) initState :=
  (arity_error_amended [] ["a", "b", "c"] none initState EngineResult.success true
    rfl (by decide)).1

/-- C5: with 2 positional arguments the first becomes `source` and the
second the destination expression; with 1 it becomes the destination
expression and `source` stays unset; with 0 and an unset default-module
environment variable the program shows usage and returns cleanly with exit
0, and processing continues without a destination only when that variable
is set (to a nonempty value). -/
theorem positional_arity_rules (opts : List CliOption) (env : Option String)
    (st : LoopState) (eng : EngineResult) (connected : Bool)
    (hloop : runLoop initState opts = LoopResult.done st) :
    (∀ src dst, ∃ bag, parseMain opts [src, dst] env = ParseOutcome.ok bag ∧
      Bag.get bag "source" = some (OptValue.str src) ∧
      Bag.get bag "destination" =
        some (OptValue.dest { expression := dst, ssh_tunnel := st.ssh_tunnel })) ∧
    (∀ dst, ∃ bag, parseMain opts [dst] env = ParseOutcome.ok bag ∧
      Bag.get bag "source" = none ∧
      Bag.get bag "destination" =
        some (OptValue.dest { expression := dst, ssh_tunnel := st.ssh_tunnel })) ∧
    (env = none →
      parseMain opts [] env = ParseOutcome.usage ∧
      runMain opts [] env eng connected =
        { exitCode := 0, engineInvoked := false, log := LogEvent.noneEv }) ∧
    (∀ bag, parseMain opts [] env = ParseOutcome.ok bag →
      (∃ s, env = some s ∧ s ≠ "") ∧ Bag.get bag "destination" = none) := by
  have hsrc : Bag.get st.program_opts "source" = none :=
    runLoop_frame opts st "source" (by decide) (Or.inl hloop)
  have hdst : Bag.get st.program_opts "destination" = none :=
    runLoop_frame opts st "destination" (by decide) (Or.inl hloop)
  refine ⟨?_, ?_, ?_, ?_⟩
  · intro src dst
    refine ⟨Bag.insert (Bag.insert st.program_opts "source" (OptValue.str src)) "destination"
      (OptValue.dest { expression := dst, ssh_tunnel := st.ssh_tunnel }), ?_, ?_, ?_⟩
    · simp [parseMain, hloop]
    · rw [Bag.get_insert]
      simp only [if_neg (by decide : ¬ ("destination" = "source"))]
      rw [Bag.get_insert]
      simp
    · rw [Bag.get_insert]
      simp
  · intro dst
    refine ⟨Bag.insert st.program_opts "destination"
      (OptValue.dest { expression := dst, ssh_tunnel := st.ssh_tunnel }), ?_, ?_, ?_⟩
    · simp [parseMain, hloop]
    · rw [Bag.get_insert]
      simp only [if_neg (by decide : ¬ ("destination" = "source"))]
      exact hsrc
    · rw [Bag.get_insert]
      simp
  · intro henv
    subst henv
    constructor
    · simp [parseMain, hloop, envTruthy]
    · simp [runMain, parseMain, hloop, envTruthy]
  · intro bag hok
    simp only [parseMain, hloop] at hok
    cases henv : env with
    | none => rw [henv] at hok; simp [envTruthy] at hok
    | some s =>
      rw [henv] at hok
      by_cases hs : s = ""
      · subst hs; simp [envTruthy] at hok
      · have : envTruthy (some s) = true := by simp [envTruthy, hs]
        rw [this, if_pos rfl] at hok
        cases hok
        exact ⟨⟨s, rfl, hs⟩, hdst⟩

theorem positional_arity_rules_witness :
    parseMain [] [] none = ParseOutcome.usage :=
  ((positional_arity_rules [] none initState EngineResult.success false rfl).2.2.1 rfl).1

/-- C3: when the execution engine raises the missing-backup-disk error,
`main` logs at info level and exits 0 when not attached to a terminal, and
logs at error level and exits 1 when attached. -/
theorem missing_disk_triage (opts : List CliOption) (args : List String)
    (env : Option String) (bag : Bag) (m : String)
    (hok : parseMain opts args env = ParseOutcome.ok bag) :
    runMain opts args env (EngineResult.missingBackupDisk m) false =
      { exitCode := 0, engineInvoked := true, log := LogEvent.infoSkip m } ∧
    runMain opts args env (EngineResult.missingBackupDisk m) true =
      { exitCode := 1, engineInvoked := true, log := LogEvent.errorMsg m } := by
  constructor <;> simp [runMain, hok, triage]

theorem missing_disk_triage_witness :
    runMain [] ["dst"] none (EngineResult.missingBackupDisk "disk missing") false =
      { exitCode := 0, engineInvoked := true, log := LogEvent.infoSkip "disk missing" } ∧
    runMain [] ["dst"] none (EngineResult.missingBackupDisk "disk missing") true =
      { exitCode := 1, engineInvoked := true, log := LogEvent.errorMsg "disk missing" } :=
  missing_disk_triage [] ["dst"] none
    [("destination", OptValue.dest { expression := "dst", ssh_tunnel := none })]
    "disk missing" rfl

/-- C6 counterexample: the missing-backup-disk failure IS a recognized
domain error, yet without a terminal it is logged at info level and the
process exits 0 — not error level and exit 1 as the claim states for every
recognized domain error. -/
theorem domain_error_cex :
    EngineResult.isDomainError (EngineResult.missingBackupDisk "disk missing") = true ∧
    runMain [] ["tank"] none (EngineResult.missingBackupDisk "disk missing") false =
      { exitCode := 0, engineInvoked := true, log := LogEvent.infoSkip "disk missing" } := by
  constructor <;> rfl

/-- C6 corrected: every recognized domain error except the silenced
unattended missing-disk case is logged at error level as a message only
with exit code 1; the unattended missing-disk case logs at info level and
exits 0; every unrecognized failure is logged at error level with a full
traceback and exits 1. -/
theorem domain_error_triage (opts : List CliOption) (args : List String)
    (env : Option String) (bag : Bag) (m : String) (connected : Bool)
    (hok : parseMain opts args env = ParseOutcome.ok bag) :
    runMain opts args env (EngineResult.domainError m) connected =
      { exitCode := 1, engineInvoked := true, log := LogEvent.errorMsg m } ∧
    runMain opts args env (EngineResult.missingBackupDisk m) connected =
      (if connected then
        { exitCode := 1, engineInvoked := true, log := LogEvent.errorMsg m }
      else
        { exitCode := 0, engineInvoked := true, log := LogEvent.infoSkip m }) ∧
    runMain opts args env (EngineResult.unexpected m) connected =
      { exitCode := 1, engineInvoked := true, log := LogEvent.errorTrace m } := by
  refine ⟨?_, ?_, ?_⟩ <;> cases connected <;> simp [runMain, hok, triage]

theorem domain_error_triage_witness :
    runMain [] ["tank"] none (EngineResult.unexpected "boom") true =
      { exitCode := 1, engineInvoked := true, log := LogEvent.errorTrace "boom" } :=
  (domain_error_triage [] ["tank"] none
    [("destination", OptValue.dest { expression := "tank", ssh_tunnel := none })]
    "boom" true rfl).2.2
